import Mathlib

/-!
# Verification of the DictateFlow recording-session pipeline

Shallow embedding of the recording pipeline of the DictateFlow repository.

The repository's `src/App.tsx` contains two concatenated revisions of the
application, separated by a document marker:

* the first (streaming) revision: `startRecording` with NEW/APPEND modes,
  the chunk scheduler `processCurrentChunk` with its time-offset cursor and
  the inline segment merge — embedded below in namespace `V1`;
* the second (batch) revision: `handleStop`, `processSession`, `handleRetry`
  and `handleSegmentChange` — embedded below in namespace `V2`.

`src/utils/db.ts` (shared by both revisions) is embedded in namespace `Db`.

`src/utils/audioUtils.ts` (the Time Codec, `formatTime`/`parseTime`) is not
present under `src/`; it is modelled from the spec (see the doc comments on
`Timestamp`, `formatTime` and `parseTime`).

React state updates (`setRecordings` etc.) are modelled as pure state
transitions on explicit model states; asynchronous provider calls
(`transcribe`, `transcribeAudio`) are modelled by passing the call's outcome
(`Except String (List _)`) as an explicit parameter; wall-clock reads
(`Date.now()`), fresh UUIDs and media-device acquisition are explicit
parameters as well.
-/

/-- Modelled from the spec: the Time Codec (`src/utils/audioUtils.ts`, not
under `src/`) "converts between a wall-clock offset (seconds) and a display
timestamp (\"MM:SS\"), and back".  A display timestamp is modelled as its
minutes/seconds pair. -/
structure Timestamp where
  mm : Nat
  ss : Nat
deriving DecidableEq, Repr

/-- Modelled from the spec: `formatTime` of `src/utils/audioUtils.ts` turns a
whole-second offset into its "MM:SS" display form. -/
def formatTime (n : Nat) : Timestamp :=
  { mm := n / 60, ss := n % 60 }

/-- Modelled from the spec: `parseTime` of `src/utils/audioUtils.ts` decodes a
display timestamp back to a whole-second offset (the comparable/sortable
form of §3 of the spec). -/
def parseTime (t : Timestamp) : Nat :=
  t.mm * 60 + t.ss

/-- Raw audio data (`Blob`), abstracted to a byte list. -/
abbrev Blob := List Nat

/-- `RecordingStatus` from `src/types.ts` (first revision; the second
revision's enum is the subset without `RECORDING`). -/
inductive RecordingStatus where
  | RECORDING
  | PENDING
  | COMPLETED
  | ERROR
deriving DecidableEq, Repr

/-- `AppState` from `src/types.ts`. -/
inductive AppState where
  | IDLE
  | RECORDING
  | PROCESSING
  | ERROR
deriving DecidableEq, Repr

namespace V1

/-- `TranscriptionSegment` from `src/types.ts`: a display timestamp plus
transcribed text. -/
structure TranscriptionSegment where
  timestamp : Timestamp
  text : String
deriving DecidableEq, Repr

/-- `RecordingSession` from `src/types.ts`. -/
structure RecordingSession where
  id : String
  createdAt : Nat
  blob : Blob
  status : RecordingStatus
  segments : List TranscriptionSegment
  errorMessage : Option String := none
deriving DecidableEq, Repr

/-- The comparator of the inline sort in `processCurrentChunk`
(`src/App.tsx` line 206): compare by decoded time offset. -/
def segLE (a b : TranscriptionSegment) : Bool :=
  decide (parseTime a.timestamp ≤ parseTime b.timestamp)

/-- The Segment Merger (`src/App.tsx` lines 204-206): concatenate the
incoming segments onto the existing ones and stable-sort by decoded offset
(JavaScript `Array.prototype.sort` is stable; embedded as a stable merge
sort). -/
def mergeSegments (existing incoming : List TranscriptionSegment) :
    List TranscriptionSegment :=
  (existing ++ incoming).mergeSort segLE

/-- `RecordingMode` from `src/App.tsx` (first revision). -/
inductive RecordingMode where
  | NEW
  | APPEND
deriving DecidableEq, Repr

/-- The mutable state of the first (streaming) revision of `App.tsx` that the
recording pipeline touches: the React state plus the streaming refs.
Timers, the media stream and `lastChunkTimeRef` (wall-clock) are outside the
model; the chunk buffer refill performed by `ondataavailable` between flushes
is made explicit in `flushRun`. -/
structure AppModel where
  appState : AppState
  recordings : List RecordingSession
  activeSessionId : Option String
  recordingMode : RecordingMode
  streamChunks : Bool
  audioChunks : List Blob
  chunkBuffer : List Blob
  chunkOffset : Nat
  currentSessionId : Option String
  globalError : Option String
deriving DecidableEq, Repr

/-- `createNewSession` from `src/App.tsx` lines 92-101; the fresh UUID and
`Date.now()` are explicit parameters. -/
def createNewSession (id : String) (now : Nat) : RecordingSession :=
  { id := id
    createdAt := now
    blob := []
    status := RecordingStatus.RECORDING
    segments := [] }

/-- `startRecording` from `src/App.tsx` lines 103-178 (first revision).
`micOk` is the outcome of `getUserMedia`; `freshId`/`now` feed
`createNewSession`.  Recorder wiring, timers and `setRecordingTime` are
outside the model. -/
def startRecording (st : AppModel) (micOk : Bool) (freshId : String)
    (now : Nat) : AppModel :=
  let st := { st with globalError := none }
  if !micOk then
    { st with globalError := some "Microphone access denied."
              appState := AppState.ERROR }
  else
    let st := { st with audioChunks := [], chunkBuffer := [] }
    if st.recordingMode = RecordingMode.NEW ∨ st.activeSessionId = none then
      let newSession := createNewSession freshId now
      { st with recordings := newSession :: st.recordings
                activeSessionId := some newSession.id
                currentSessionId := some newSession.id
                chunkOffset := if st.streamChunks then 0 else st.chunkOffset
                appState := AppState.RECORDING }
    else
      match st.activeSessionId with
      | some sessionId =>
        let recs := st.recordings.map fun r =>
          if r.id = sessionId then { r with status := RecordingStatus.RECORDING } else r
        let lastTime :=
          match st.recordings.find? (fun r => r.id == sessionId) with
          | some activeSession =>
            match activeSession.segments.getLast? with
            | some lastSeg => parseTime lastSeg.timestamp + 5
            | none => 0
          | none => 0
        { st with recordings := recs
                  currentSessionId := some sessionId
                  chunkOffset := if st.streamChunks then lastTime else st.chunkOffset
                  appState := AppState.RECORDING }
      | none => st

/-- The per-segment offset shift of `processCurrentChunk` (`src/App.tsx`
lines 192-199): re-encode the segment's decoded offset shifted by the
chunk's captured offset. -/
def shiftSegment (timeOffset : Nat) (seg : TranscriptionSegment) :
    TranscriptionSegment :=
  { seg with timestamp := formatTime (parseTime seg.timestamp + timeOffset) }

/-- `processCurrentChunk` from `src/App.tsx` lines 180-223.  The
`transcribe` call's outcome is the `outcome` parameter; the buffer is
cleared and the offset cursor advanced by `CHUNK_INTERVAL_MS / 1000 = 5`
before the asynchronous call, and a failed call is caught and ignored. -/
def processCurrentChunk (st : AppModel)
    (outcome : Except String (List TranscriptionSegment)) : AppModel :=
  if st.chunkBuffer.isEmpty ∨ st.currentSessionId = none then st
  else
    let timeOffset := st.chunkOffset
    let st1 := { st with chunkBuffer := [], chunkOffset := st.chunkOffset + 5 }
    match outcome with
    | Except.error _ => st1
    | Except.ok segments =>
      let adjustedSegments := segments.map (shiftSegment timeOffset)
      if adjustedSegments.isEmpty then st1
      else
        { st1 with
          recordings := st1.recordings.map fun rec =>
            if st.currentSessionId = some rec.id then
              { rec with segments := mergeSegments rec.segments adjustedSegments }
            else rec }

/-- A streaming run: a sequence of flushes, each supplying the chunk buffer
content accumulated by `ondataavailable` since the previous flush together
with that chunk's transcription outcome. -/
def flushRun (st : AppModel) :
    List (List Blob × Except String (List TranscriptionSegment)) → AppModel
  | [] => st
  | e :: rest => flushRun (processCurrentChunk { st with chunkBuffer := e.1 } e.2) rest

end V1

namespace V2

/-- A JavaScript array element of the `segments` array of the second
revision.  `handleSegmentChange` writes `{ ...updatedSegments[segmentIndex],
text: newText }` at an arbitrary index, so beside proper segments the array
can hold a record with only a `text` property (spreading the `undefined`
read of a missing element contributes no properties) and, past the old
length, sparse holes. -/
inductive JSSegment where
  | seg (timestamp : Timestamp) (text : String)
  | textOnly (text : String)
  | hole
deriving DecidableEq, Repr

/-- `RecordingSession` as used by the second revision of `App.tsx`
(`src/unnamed/part_000`): same fields, `segments` holds JavaScript array
elements. -/
structure RecordingSession where
  id : String
  createdAt : Nat
  blob : Blob
  status : RecordingStatus
  segments : List JSSegment
  errorMessage : Option String := none
deriving DecidableEq, Repr

/-- The controller state of the second revision touched by
`processSession`/`handleRetry`: the sessions list plus the global app state
and error toast. -/
structure ControllerState where
  recordings : List RecordingSession
  appState : AppState
  globalError : Option String
deriving DecidableEq, Repr

/-- `processSession` from `src/App.tsx` lines 375-418 (second revision).
The `transcribeAudio(session.blob)` outcome is the `outcome` parameter (its
error is the message text computed from the thrown value).  On success the
session record is rebuilt with object spread — `{ ...session, status:
COMPLETED, segments: newSegments }` — so every other field, including a
previously stored `errorMessage`, is carried over.  `updateRecordingInDB`
persists the very record placed in the state. -/
def processSession (st : ControllerState) (session : RecordingSession)
    (outcome : Except String (List JSSegment)) : ControllerState :=
  match outcome with
  | Except.ok newSegments =>
    let updatedSession : RecordingSession :=
      { session with status := RecordingStatus.COMPLETED, segments := newSegments }
    { st with
      recordings := st.recordings.map fun r =>
        if r.id = session.id then updatedSession else r
      appState := AppState.IDLE }
  | Except.error msg =>
    let failedSession : RecordingSession :=
      { session with status := RecordingStatus.ERROR, errorMessage := some msg }
    { st with
      recordings := st.recordings.map fun r =>
        if r.id = session.id then failedSession else r
      globalError := some msg
      appState := AppState.IDLE }

/-- `handleRetry` from `src/App.tsx` lines 420-424 (second revision): set the
app state to `PROCESSING`, clear the error toast, and re-run
`processSession` on the given session — with no check of the session's
status. -/
def handleRetry (st : ControllerState) (session : RecordingSession)
    (outcome : Except String (List JSSegment)) : ControllerState :=
  processSession
    { st with appState := AppState.PROCESSING, globalError := none }
    session outcome

/-- The JavaScript object-spread update `{ ...updatedSegments[segmentIndex],
text: newText }`: a proper segment keeps its timestamp; spreading a
text-only record or the `undefined` read of a hole yields a record with only
the new text. -/
def setText (s : JSSegment) (newText : String) : JSSegment :=
  match s with
  | JSSegment.seg t _ => JSSegment.seg t newText
  | JSSegment.textOnly _ => JSSegment.textOnly newText
  | JSSegment.hole => JSSegment.textOnly newText

/-- The JavaScript array write `updatedSegments[segmentIndex] = {
...updatedSegments[segmentIndex], text: newText }` of `handleSegmentChange`:
in bounds it replaces the element; past the end it extends the array to
`segmentIndex + 1` elements, filling the gap with sparse holes and placing a
text-only record at `segmentIndex`. -/
def writeSegmentText (l : List JSSegment) (segmentIndex : Nat)
    (newText : String) : List JSSegment :=
  if h : segmentIndex < l.length then
    l.set segmentIndex (setText (l.get ⟨segmentIndex, h⟩) newText)
  else
    l ++ List.replicate (segmentIndex - l.length) JSSegment.hole
      ++ [JSSegment.textOnly newText]

/-- `handleSegmentChange` from `src/App.tsx` lines 426-441 (second
revision): rebuild the matching session with the written segments array and
persist it; other sessions pass through unchanged. -/
def handleSegmentChange (recordings : List RecordingSession)
    (sessionId : String) (segmentIndex : Nat) (newText : String) :
    List RecordingSession :=
  recordings.map fun rec =>
    if rec.id = sessionId then
      { rec with segments := writeSegmentText rec.segments segmentIndex newText }
    else rec

/-- The spec's segment-ordering invariant (§3) for a JavaScript segments
array: it is a sequence of proper timestamped segments whose decoded
offsets are non-decreasing. -/
def SortedByOffset (l : List JSSegment) : Prop :=
  ∃ tl : List (Timestamp × String),
    l = tl.map (fun p => JSSegment.seg p.1 p.2) ∧
    (tl.map fun p => parseTime p.1).Pairwise (· ≤ ·)

end V2

namespace Db

/-- `getRecordingsFromDB` from `src/utils/db.ts` lines 35-49: read all
stored sessions and sort by `createdAt` descending (stable JavaScript sort).
The IndexedDB store is modelled as the list of its records. -/
def getRecordingsFromDB (store : List V2.RecordingSession) :
    List V2.RecordingSession :=
  store.mergeSort fun a b => decide (b.createdAt ≤ a.createdAt)

/-- `deleteOldRecordings` from `src/utils/db.ts` lines 55-74: if more than
20 sessions are stored, delete by id every session beyond the 20th of the
newest-first ordering. -/
def deleteOldRecordings (store : List V2.RecordingSession) :
    List V2.RecordingSession :=
  let recordings := getRecordingsFromDB store
  if recordings.length ≤ 20 then store
  else
    let toDelete := recordings.drop 20
    store.filter fun s => !(toDelete.map fun r => r.id).contains s.id

end Db

/-! ## Theorems -/

/-- The Time Codec round-trips: decoding a freshly encoded offset returns
the offset. -/
theorem parseTime_formatTime (n : Nat) : parseTime (formatTime n) = n := by
  simp only [parseTime, formatTime]
  omega

namespace V1

theorem segLE_trans : ∀ a b c : TranscriptionSegment,
    segLE a b → segLE b c → segLE a c := by
  intro a b c hab hbc
  simp only [segLE, decide_eq_true_eq] at *
  omega

theorem segLE_total : ∀ a b : TranscriptionSegment, segLE a b || segLE b a := by
  intro a b
  simp only [segLE, Bool.or_eq_true, decide_eq_true_eq]
  omega

/-- Stability of the embedded merge: the sort keeps the elements of any one
decoded-offset class in their original relative order. -/
theorem mergeSort_filter_key (l : List TranscriptionSegment) (k : Nat) :
    (l.mergeSort segLE).filter (fun s => parseTime s.timestamp == k)
      = l.filter (fun s => parseTime s.timestamp == k) := by
  set p : TranscriptionSegment → Bool := fun s => parseTime s.timestamp == k with hp
  have hBpair : (l.filter p).Pairwise (fun a b => segLE a b = true) := by
    apply List.pairwise_of_forall_mem_list
    intro a ha b hb
    have ha' := List.of_mem_filter ha
    have hb' := List.of_mem_filter hb
    simp only [hp, beq_iff_eq] at ha' hb'
    simp [segLE, ha', hb']
  have hstable : List.Sublist (l.filter p) (l.mergeSort segLE) :=
    List.sublist_mergeSort segLE_trans segLE_total hBpair (List.filter_sublist l)
  have hfix : (l.filter p).filter p = l.filter p :=
    List.filter_eq_self.mpr fun a ha => List.of_mem_filter ha
  have h2 : List.Sublist (l.filter p) ((l.mergeSort segLE).filter p) := by
    have := hstable.filter p
    rwa [hfix] at this
  have hlen : ((l.mergeSort segLE).filter p).length = (l.filter p).length :=
    ((List.mergeSort_perm l segLE).filter p).length_eq
  exact (h2.eq_of_length hlen.symm).symm

/-- C1: merging incoming segments into a session concatenates them onto the
existing sequence and stable-sorts by decoded offset: after every merge the
result is non-decreasing in decoded offset, it is a permutation of
`existing ++ incoming` (no de-duplication — every repeated or overlapping
segment is retained), and segments of equal decoded offset keep their
relative submission order. -/
theorem mergeSegments_sorted_stable_no_dedup
    (existing incoming : List TranscriptionSegment) :
    (mergeSegments existing incoming).Pairwise
      (fun a b => parseTime a.timestamp ≤ parseTime b.timestamp) ∧
    (mergeSegments existing incoming).Perm (existing ++ incoming) ∧
    ∀ k : Nat,
      (mergeSegments existing incoming).filter
          (fun s => parseTime s.timestamp == k)
        = (existing ++ incoming).filter (fun s => parseTime s.timestamp == k) := by
  refine ⟨?_, ?_, ?_⟩
  · have h := List.sorted_mergeSort segLE_trans segLE_total (existing ++ incoming)
    exact h.imp fun hab => by simpa [segLE] using hab
  · exact List.mergeSort_perm (existing ++ incoming) segLE
  · intro k
    exact mergeSort_filter_key (existing ++ incoming) k

/-- `processCurrentChunk` never changes which session the stream targets. -/
theorem processCurrentChunk_currentSessionId (st : AppModel)
    (outcome : Except String (List TranscriptionSegment)) :
    (processCurrentChunk st outcome).currentSessionId = st.currentSessionId := by
  unfold processCurrentChunk
  split
  · rfl
  · cases outcome with
    | error _ => rfl
    | ok segments => by_cases h : (segments.map (shiftSegment st.chunkOffset)).isEmpty <;> simp [h]

/-- A flush of a non-empty buffer advances the offset cursor by exactly the
nominal 5-second interval, whatever the outcome. -/
theorem processCurrentChunk_chunkOffset (st : AppModel)
    (outcome : Except String (List TranscriptionSegment))
    (hbuf : st.chunkBuffer ≠ []) (hsid : st.currentSessionId ≠ none) :
    (processCurrentChunk st outcome).chunkOffset = st.chunkOffset + 5 := by
  have hguard : ¬(st.chunkBuffer.isEmpty = true ∨ st.currentSessionId = none) := by
    simp only [List.isEmpty_iff, not_or]
    exact ⟨hbuf, hsid⟩
  unfold processCurrentChunk
  rw [if_neg hguard]
  cases outcome with
  | error _ => rfl
  | ok segments => by_cases h : (segments.map (shiftSegment st.chunkOffset)).isEmpty <;> simp [h]

/-- A run of flushes with non-empty buffers advances the cursor by 5 seconds
per flush. -/
theorem flushRun_chunkOffset
    (events : List (List Blob × Except String (List TranscriptionSegment))) :
    ∀ st : AppModel, st.currentSessionId ≠ none →
      (∀ e ∈ events, e.1 ≠ ([] : List Blob)) →
      (flushRun st events).chunkOffset = st.chunkOffset + 5 * events.length := by
  induction events with
  | nil => intro st _ _; simp [flushRun]
  | cons e rest ih =>
    intro st hsid hne
    have hbuf : e.1 ≠ ([] : List Blob) := hne e (List.mem_cons_self e rest)
    have hstep := processCurrentChunk_chunkOffset { st with chunkBuffer := e.1 } e.2 hbuf hsid
    have hsid' := processCurrentChunk_currentSessionId { st with chunkBuffer := e.1 } e.2
    rw [flushRun, ih _ (by rw [hsid']; exact hsid)
      (fun x hx => hne x (List.mem_cons_of_mem e hx)), hstep]
    simp only [List.length_cons]
    ring

/-- C6: a failed chunk transcription in streaming mode is fully contained —
the chunk is dropped, every session (status and segments) is left exactly as
it was, and the stream continues: the buffer is cleared, the cursor is
advanced to the next chunk's offset, and the target session and app state
are unchanged. -/
theorem processCurrentChunk_failure_contained (st : AppModel) (msg : String)
    (hbuf : st.chunkBuffer ≠ []) (hsid : st.currentSessionId ≠ none) :
    (processCurrentChunk st (Except.error msg)).recordings = st.recordings ∧
    (processCurrentChunk st (Except.error msg)).chunkBuffer = [] ∧
    (processCurrentChunk st (Except.error msg)).chunkOffset = st.chunkOffset + 5 ∧
    (processCurrentChunk st (Except.error msg)).currentSessionId = st.currentSessionId ∧
    (processCurrentChunk st (Except.error msg)).appState = st.appState := by
  have hguard : ¬(st.chunkBuffer.isEmpty = true ∨ st.currentSessionId = none) := by
    simp only [List.isEmpty_iff, not_or]
    exact ⟨hbuf, hsid⟩
  unfold processCurrentChunk
  rw [if_neg hguard]
  exact ⟨rfl, rfl, rfl, rfl, rfl⟩

theorem processCurrentChunk_failure_contained_witness :
    (processCurrentChunk
        { appState := AppState.RECORDING
          recordings := [{ id := "s1", createdAt := 1, blob := []
                           status := RecordingStatus.RECORDING
                           segments := [{ timestamp := { mm := 0, ss := 0 }, text := "hi" }] }]
          activeSessionId := some "s1"
          recordingMode := RecordingMode.NEW
          streamChunks := true
          audioChunks := [[7]]
          chunkBuffer := [[7]]
          chunkOffset := 5
          currentSessionId := some "s1"
          globalError := none }
        (Except.error "network down")).recordings
      = [{ id := "s1", createdAt := 1, blob := []
           status := RecordingStatus.RECORDING
           segments := [{ timestamp := { mm := 0, ss := 0 }, text := "hi" }] }] :=
  (processCurrentChunk_failure_contained _ "network down"
    (by decide) (by decide)).1

/-- C7: every flushed non-empty chunk is assigned the current cursor value as
its offset and the cursor then advances by the fixed nominal 5-second
interval regardless of the chunk's content; on success every returned
segment's decoded offset is shifted by exactly the chunk's captured offset
before merging; and in a new-session streaming run (cursor starting at 0)
the n-th flushed non-empty chunk, counting from 0, observes offset n·5. -/
theorem chunkScheduler_offset_discipline (st : AppModel) (sid : String)
    (hsid : st.currentSessionId = some sid) (hbuf : st.chunkBuffer ≠ []) :
    (∀ outcome, (processCurrentChunk st outcome).chunkOffset = st.chunkOffset + 5) ∧
    (∀ off seg, parseTime (shiftSegment off seg).timestamp
      = parseTime seg.timestamp + off) ∧
    (∀ segs, segs ≠ [] →
      (processCurrentChunk st (Except.ok segs)).recordings
        = st.recordings.map fun rec =>
            if sid = rec.id then
              { rec with segments :=
                  mergeSegments rec.segments (segs.map (shiftSegment st.chunkOffset)) }
            else rec) ∧
    (∀ events : List (List Blob × Except String (List TranscriptionSegment)),
      (∀ e ∈ events, e.1 ≠ ([] : List Blob)) → st.chunkOffset = 0 →
      ∀ n, n ≤ events.length →
        (flushRun st (events.take n)).chunkOffset = 5 * n) := by
  have hsid' : st.currentSessionId ≠ none := by rw [hsid]; exact Option.some_ne_none sid
  refine ⟨fun outcome => processCurrentChunk_chunkOffset st outcome hbuf hsid', ?_, ?_, ?_⟩
  · intro off seg
    simp [shiftSegment, parseTime_formatTime]
  · intro segs hsegs
    have hguard : ¬(st.chunkBuffer.isEmpty = true ∨ st.currentSessionId = none) := by
      simp only [List.isEmpty_iff, not_or]
      exact ⟨hbuf, hsid'⟩
    have hne : (segs.map (shiftSegment st.chunkOffset)).isEmpty = false := by
      simp [List.isEmpty_iff, hsegs]
    unfold processCurrentChunk
    rw [if_neg hguard]
    simp only [hne, Bool.false_eq_true, if_false, hsid]
    apply List.map_congr_left
    intro rec _
    by_cases h : sid = rec.id
    · rw [if_pos (by rw [h]), if_pos h]
    · rw [if_neg (by simpa using h), if_neg h]
  · intro events hne h0 n hn
    have hlen : (events.take n).length = n := by
      rw [List.length_take]
      omega
    have := flushRun_chunkOffset (events.take n) st hsid'
      (fun e he => hne e (List.mem_of_mem_take he))
    rw [this, h0, hlen]
    omega

theorem chunkScheduler_offset_discipline_witness :
    (processCurrentChunk
        { appState := AppState.RECORDING
          recordings := [{ id := "s1", createdAt := 1, blob := []
                           status := RecordingStatus.RECORDING, segments := [] }]
          activeSessionId := some "s1"
          recordingMode := RecordingMode.NEW
          streamChunks := true
          audioChunks := [[7]]
          chunkBuffer := [[7]]
          chunkOffset := 10
          currentSessionId := some "s1"
          globalError := none }
        (Except.ok [{ timestamp := { mm := 0, ss := 2 }, text := "hello" }])).chunkOffset
      = 15 :=
  (chunkScheduler_offset_discipline _ "s1" rfl (by decide)).1
    (Except.ok [{ timestamp := { mm := 0, ss := 2 }, text := "hello" }])

/-- C8: in append mode with streaming enabled, `startRecording` initialises
the offset cursor to the decoded offset of the target session's last
segment plus the fixed 5-second pad, and to 0 when the target session has
no segments. -/
theorem startRecording_append_offset (st : AppModel) (freshId : String)
    (now : Nat) (sid : String) (s : RecordingSession)
    (hmode : st.recordingMode = RecordingMode.APPEND)
    (hactive : st.activeSessionId = some sid)
    (hstream : st.streamChunks = true)
    (hfind : st.recordings.find? (fun r => r.id == sid) = some s) :
    (s.segments = [] → (startRecording st true freshId now).chunkOffset = 0) ∧
    ∀ pre lastSeg, s.segments = pre ++ [lastSeg] →
      (startRecording st true freshId now).chunkOffset
        = parseTime lastSeg.timestamp + 5 := by
  unfold startRecording
  simp only [Bool.not_true, Bool.false_eq_true, if_false, hmode, hactive, hstream]
  constructor
  · intro hnil
    simp [hfind, hnil]
  · intro pre lastSeg hcons
    simp [hfind, hcons, List.getLast?_concat]

theorem startRecording_append_offset_witness :
    (startRecording
        { appState := AppState.IDLE
          recordings := [{ id := "a", createdAt := 1, blob := []
                           status := RecordingStatus.COMPLETED
                           segments := [{ timestamp := { mm := 0, ss := 10 }, text := "hi" }] }]
          activeSessionId := some "a"
          recordingMode := RecordingMode.APPEND
          streamChunks := true
          audioChunks := []
          chunkBuffer := []
          chunkOffset := 0
          currentSessionId := none
          globalError := none }
        true "fresh" 9).chunkOffset = 15 := by
  have h := (startRecording_append_offset
      { appState := AppState.IDLE
        recordings := [{ id := "a", createdAt := 1, blob := []
                         status := RecordingStatus.COMPLETED
                         segments := [{ timestamp := { mm := 0, ss := 10 }, text := "hi" }] }]
        activeSessionId := some "a"
        recordingMode := RecordingMode.APPEND
        streamChunks := true
        audioChunks := []
        chunkBuffer := []
        chunkOffset := 0
        currentSessionId := none
        globalError := none }
      "fresh" 9 "a"
      { id := "a", createdAt := 1, blob := []
        status := RecordingStatus.COMPLETED
        segments := [{ timestamp := { mm := 0, ss := 10 }, text := "hi" }] }
      rfl rfl rfl (by decide)).2
      [] { timestamp := { mm := 0, ss := 10 }, text := "hi" } (by decide)
  rw [h]
  decide

/-- C2 counterexample: a state in which one session is `RECORDING` and
`startRecording` is called in NEW mode with microphone access granted — the
call is not rejected and not a no-op: afterwards two sessions have status
`RECORDING`. -/
theorem startRecording_second_recording_cex :
    (({ appState := AppState.RECORDING
        recordings := [{ id := "s1", createdAt := 1, blob := []
                         status := RecordingStatus.RECORDING, segments := [] }]
        activeSessionId := some "s1"
        recordingMode := RecordingMode.NEW
        streamChunks := false
        audioChunks := []
        chunkBuffer := []
        chunkOffset := 0
        currentSessionId := some "s1"
        globalError := none } : AppModel).recordings.countP
        (fun r => r.status == RecordingStatus.RECORDING) = 1) ∧
    ((startRecording
        { appState := AppState.RECORDING
          recordings := [{ id := "s1", createdAt := 1, blob := []
                           status := RecordingStatus.RECORDING, segments := [] }]
          activeSessionId := some "s1"
          recordingMode := RecordingMode.NEW
          streamChunks := false
          audioChunks := []
          chunkBuffer := []
          chunkOffset := 0
          currentSessionId := some "s1"
          globalError := none }
        true "s2" 2).recordings.countP
        (fun r => r.status == RecordingStatus.RECORDING) = 2) := by
  constructor <;> decide

/-- C2 (amended): `startRecording` performs no single-writer check.  With
microphone access granted and NEW mode it unconditionally prepends a fresh
session whose status is `RECORDING`; in particular, called while some
session is already `RECORDING` it yields a second concurrently `RECORDING`
session (the count of `RECORDING` sessions grows by one). -/
theorem startRecording_no_single_writer_guard (st : AppModel)
    (freshId : String) (now : Nat)
    (hmode : st.recordingMode = RecordingMode.NEW) :
    (startRecording st true freshId now).recordings
      = createNewSession freshId now :: st.recordings ∧
    (createNewSession freshId now).status = RecordingStatus.RECORDING ∧
    (startRecording st true freshId now).recordings.countP
        (fun r => r.status == RecordingStatus.RECORDING)
      = st.recordings.countP (fun r => r.status == RecordingStatus.RECORDING) + 1 := by
  have hrecs : (startRecording st true freshId now).recordings
      = createNewSession freshId now :: st.recordings := by
    unfold startRecording
    simp [hmode]
  refine ⟨hrecs, rfl, ?_⟩
  rw [hrecs, List.countP_cons]
  simp [createNewSession]

theorem startRecording_no_single_writer_guard_witness :
    (startRecording
        { appState := AppState.RECORDING
          recordings := [{ id := "s1", createdAt := 1, blob := []
                           status := RecordingStatus.RECORDING, segments := [] }]
          activeSessionId := some "s1"
          recordingMode := RecordingMode.NEW
          streamChunks := false
          audioChunks := []
          chunkBuffer := []
          chunkOffset := 0
          currentSessionId := some "s1"
          globalError := none }
        true "s2" 2).recordings.countP
        (fun r => r.status == RecordingStatus.RECORDING)
      = (({ appState := AppState.RECORDING
            recordings := [{ id := "s1", createdAt := 1, blob := []
                             status := RecordingStatus.RECORDING, segments := [] }]
            activeSessionId := some "s1"
            recordingMode := RecordingMode.NEW
            streamChunks := false
            audioChunks := []
            chunkBuffer := []
            chunkOffset := 0
            currentSessionId := some "s1"
            globalError := none } : AppModel).recordings.countP
            (fun r => r.status == RecordingStatus.RECORDING)) + 1 :=
  (startRecording_no_single_writer_guard _ "s2" 2 rfl).2.2

end V1

namespace V2

/-- C4 counterexample: an `ERROR` session with a stored error message is
retried and the provider now succeeds — the session becomes `COMPLETED`
with exactly the new segments, but the error message is NOT discarded: the
object spread in `processSession` carries `errorMessage` over, so the
persisted record has `errorMessage` present while `status = COMPLETED`. -/
theorem handleRetry_keeps_errorMessage_cex :
    (handleRetry
        { recordings := [{ id := "a", createdAt := 1, blob := [7]
                           status := RecordingStatus.ERROR
                           segments := []
                           errorMessage := some "boom" }]
          appState := AppState.IDLE
          globalError := some "boom" }
        { id := "a", createdAt := 1, blob := [7]
          status := RecordingStatus.ERROR
          segments := []
          errorMessage := some "boom" }
        (Except.ok [JSSegment.seg { mm := 0, ss := 5 } "hello"])).recordings
      = [{ id := "a", createdAt := 1, blob := [7]
           status := RecordingStatus.COMPLETED
           segments := [JSSegment.seg { mm := 0, ss := 5 } "hello"]
           errorMessage := some "boom" }] ∧
    ({ id := "a", createdAt := 1, blob := [7]
       status := RecordingStatus.COMPLETED
       segments := [JSSegment.seg { mm := 0, ss := 5 } "hello"]
       errorMessage := some "boom" } : RecordingSession).status
      = RecordingStatus.COMPLETED ∧
    ({ id := "a", createdAt := 1, blob := [7]
       status := RecordingStatus.COMPLETED
       segments := [JSSegment.seg { mm := 0, ss := 5 } "hello"]
       errorMessage := some "boom" } : RecordingSession).errorMessage ≠ none := by
  refine ⟨by decide, rfl, by decide⟩

/-- C4 (amended): retrying an `ERROR` session with a now-succeeding provider
moves it to `COMPLETED` with exactly the newly returned segments — the
retry replaces, never appends to, the segment set — but the previously
stored error message is RETAINED on the record (the object spread keeps
`errorMessage`; it is merely no longer displayed since the status is not
`ERROR`).  The global error toast is cleared and the app returns to idle. -/
theorem handleRetry_error_success (st : ControllerState)
    (session : RecordingSession) (segs : List JSSegment)
    (h : session.status = RecordingStatus.ERROR) :
    (handleRetry st session (Except.ok segs)).recordings
      = st.recordings.map (fun r =>
          if r.id = session.id then
            { session with status := RecordingStatus.COMPLETED, segments := segs }
          else r) ∧
    ({ session with status := RecordingStatus.COMPLETED,
                    segments := segs } : RecordingSession).segments = segs ∧
    ({ session with status := RecordingStatus.COMPLETED,
                    segments := segs } : RecordingSession).errorMessage
      = session.errorMessage ∧
    (handleRetry st session (Except.ok segs)).globalError = none ∧
    (handleRetry st session (Except.ok segs)).appState = AppState.IDLE := by
  refine ⟨?_, rfl, rfl, rfl, rfl⟩
  unfold handleRetry processSession
  rfl

theorem handleRetry_error_success_witness :
    (handleRetry
        { recordings := [{ id := "a", createdAt := 1, blob := [7]
                           status := RecordingStatus.ERROR
                           segments := [JSSegment.seg { mm := 0, ss := 0 } "old"]
                           errorMessage := some "boom" }]
          appState := AppState.IDLE
          globalError := some "boom" }
        { id := "a", createdAt := 1, blob := [7]
          status := RecordingStatus.ERROR
          segments := [JSSegment.seg { mm := 0, ss := 0 } "old"]
          errorMessage := some "boom" }
        (Except.ok [JSSegment.seg { mm := 0, ss := 5 } "new"])).recordings
      = [{ id := "a", createdAt := 1, blob := [7]
           status := RecordingStatus.COMPLETED
           segments := [JSSegment.seg { mm := 0, ss := 5 } "new"]
           errorMessage := some "boom" }] := by
  have h := (handleRetry_error_success
      { recordings := [{ id := "a", createdAt := 1, blob := [7]
                         status := RecordingStatus.ERROR
                         segments := [JSSegment.seg { mm := 0, ss := 0 } "old"]
                         errorMessage := some "boom" }]
        appState := AppState.IDLE
        globalError := some "boom" }
      { id := "a", createdAt := 1, blob := [7]
        status := RecordingStatus.ERROR
        segments := [JSSegment.seg { mm := 0, ss := 0 } "old"]
        errorMessage := some "boom" }
      [JSSegment.seg { mm := 0, ss := 5 } "new"] rfl).1
  rw [h]
  decide

/-- C5 counterexample: `handleRetry` on a `COMPLETED` session is not a no-op
and is not rejected — with a failing provider the `COMPLETED` session
transitions to `ERROR` and gains an error message. -/
theorem handleRetry_completed_not_noop_cex :
    (handleRetry
        { recordings := [{ id := "a", createdAt := 1, blob := [7]
                           status := RecordingStatus.COMPLETED
                           segments := [JSSegment.seg { mm := 0, ss := 5 } "hi"]
                           errorMessage := none }]
          appState := AppState.IDLE
          globalError := none }
        { id := "a", createdAt := 1, blob := [7]
          status := RecordingStatus.COMPLETED
          segments := [JSSegment.seg { mm := 0, ss := 5 } "hi"]
          errorMessage := none }
        (Except.error "HTTP 500")).recordings
      = [{ id := "a", createdAt := 1, blob := [7]
           status := RecordingStatus.ERROR
           segments := [JSSegment.seg { mm := 0, ss := 5 } "hi"]
           errorMessage := some "HTTP 500" }] ∧
    RecordingStatus.ERROR ≠ RecordingStatus.COMPLETED := by
  refine ⟨by decide, by decide⟩

/-- C5 (amended): `handleRetry` performs no status check.  Called on a
`COMPLETED` session it re-runs transcription on the stored audio: on
success it overwrites the segment set with the new result (status stays
`COMPLETED`), on failure it transitions the session to `ERROR` with the
failure message; the stored audio blob is unchanged in both cases.  Retry
is restricted to `ERROR` sessions only at the UI call sites, not here. -/
theorem handleRetry_no_status_check (st : ControllerState)
    (session : RecordingSession)
    (h : session.status = RecordingStatus.COMPLETED) :
    (∀ segs, (handleRetry st session (Except.ok segs)).recordings
        = st.recordings.map fun r =>
            if r.id = session.id then
              { session with status := RecordingStatus.COMPLETED, segments := segs }
            else r) ∧
    (∀ msg, (handleRetry st session (Except.error msg)).recordings
        = st.recordings.map fun r =>
            if r.id = session.id then
              { session with status := RecordingStatus.ERROR,
                             errorMessage := some msg }
            else r) ∧
    (∀ segs, ({ session with status := RecordingStatus.COMPLETED,
                             segments := segs } : RecordingSession).blob
      = session.blob) ∧
    (∀ msg, ({ session with status := RecordingStatus.ERROR,
                            errorMessage := some msg } : RecordingSession).blob
      = session.blob) := by
  refine ⟨?_, ?_, fun _ => rfl, fun _ => rfl⟩
  · intro segs
    unfold handleRetry processSession
    rfl
  · intro msg
    unfold handleRetry processSession
    rfl

theorem handleRetry_no_status_check_witness :
    (handleRetry
        { recordings := [{ id := "a", createdAt := 1, blob := [7]
                           status := RecordingStatus.COMPLETED
                           segments := [JSSegment.seg { mm := 0, ss := 5 } "hi"]
                           errorMessage := none }]
          appState := AppState.IDLE
          globalError := none }
        { id := "a", createdAt := 1, blob := [7]
          status := RecordingStatus.COMPLETED
          segments := [JSSegment.seg { mm := 0, ss := 5 } "hi"]
          errorMessage := none }
        (Except.ok [JSSegment.seg { mm := 0, ss := 9 } "again"])).recordings
      = [{ id := "a", createdAt := 1, blob := [7]
           status := RecordingStatus.COMPLETED
           segments := [JSSegment.seg { mm := 0, ss := 9 } "again"]
           errorMessage := none }] := by
  have h := ((handleRetry_no_status_check
      { recordings := [{ id := "a", createdAt := 1, blob := [7]
                         status := RecordingStatus.COMPLETED
                         segments := [JSSegment.seg { mm := 0, ss := 5 } "hi"]
                         errorMessage := none }]
        appState := AppState.IDLE
        globalError := none }
      { id := "a", createdAt := 1, blob := [7]
        status := RecordingStatus.COMPLETED
        segments := [JSSegment.seg { mm := 0, ss := 5 } "hi"]
        errorMessage := none }
      rfl).1) [JSSegment.seg { mm := 0, ss := 9 } "again"]
  rw [h]
  decide

/-- C9: editing a segment at a valid index replaces exactly that segment's
text, keeping its timestamp and its position; all other segments, all other
fields of the edited session, and all sessions with a different id are
unchanged. -/
theorem handleSegmentChange_valid_index (recs : List RecordingSession)
    (sid : String) (idx : Nat) (txt : String) (i : Nat)
    (hi : i < recs.length) (t : Timestamp) (x : String)
    (hidx : idx < (recs.get ⟨i, hi⟩).segments.length)
    (hseg : (recs.get ⟨i, hi⟩).segments.get ⟨idx, hidx⟩ = JSSegment.seg t x) :
    (handleSegmentChange recs sid idx txt).length = recs.length ∧
    ∀ hi2 : i < (handleSegmentChange recs sid idx txt).length,
      (((recs.get ⟨i, hi⟩).id ≠ sid →
        (handleSegmentChange recs sid idx txt).get ⟨i, hi2⟩ = recs.get ⟨i, hi⟩) ∧
      ((recs.get ⟨i, hi⟩).id = sid →
        ((handleSegmentChange recs sid idx txt).get ⟨i, hi2⟩).id
            = (recs.get ⟨i, hi⟩).id ∧
        ((handleSegmentChange recs sid idx txt).get ⟨i, hi2⟩).createdAt
            = (recs.get ⟨i, hi⟩).createdAt ∧
        ((handleSegmentChange recs sid idx txt).get ⟨i, hi2⟩).blob
            = (recs.get ⟨i, hi⟩).blob ∧
        ((handleSegmentChange recs sid idx txt).get ⟨i, hi2⟩).status
            = (recs.get ⟨i, hi⟩).status ∧
        ((handleSegmentChange recs sid idx txt).get ⟨i, hi2⟩).errorMessage
            = (recs.get ⟨i, hi⟩).errorMessage ∧
        ((handleSegmentChange recs sid idx txt).get ⟨i, hi2⟩).segments.length
            = (recs.get ⟨i, hi⟩).segments.length ∧
        (∀ hidx2 : idx < ((handleSegmentChange recs sid idx txt).get ⟨i, hi2⟩).segments.length,
          ((handleSegmentChange recs sid idx txt).get ⟨i, hi2⟩).segments.get ⟨idx, hidx2⟩
            = JSSegment.seg t txt) ∧
        ∀ j (hj : j < (recs.get ⟨i, hi⟩).segments.length)
          (hj2 : j < ((handleSegmentChange recs sid idx txt).get ⟨i, hi2⟩).segments.length),
          j ≠ idx →
          ((handleSegmentChange recs sid idx txt).get ⟨i, hi2⟩).segments.get ⟨j, hj2⟩
            = (recs.get ⟨i, hi⟩).segments.get ⟨j, hj⟩)) := by
  have hlen : (handleSegmentChange recs sid idx txt).length = recs.length := by
    simp [handleSegmentChange]
  refine ⟨hlen, ?_⟩
  intro hi2
  have hget : (handleSegmentChange recs sid idx txt).get ⟨i, hi2⟩
      = (fun rec => if rec.id = sid then
          { rec with segments := writeSegmentText rec.segments idx txt }
        else rec) (recs.get ⟨i, hi⟩) := by
    simp [handleSegmentChange]
  constructor
  · intro hne
    rw [hget]
    simp only [if_neg hne]
  · intro heq
    have hw : writeSegmentText (recs.get ⟨i, hi⟩).segments idx txt
        = (recs.get ⟨i, hi⟩).segments.set idx (JSSegment.seg t txt) := by
      rw [writeSegmentText, dif_pos hidx, hseg]
      rfl
    have hrec : (handleSegmentChange recs sid idx txt).get ⟨i, hi2⟩
        = { recs.get ⟨i, hi⟩ with
            segments := (recs.get ⟨i, hi⟩).segments.set idx (JSSegment.seg t txt) } := by
      rw [hget]
      simp only [if_pos heq, hw]
    rw [hrec]
    refine ⟨rfl, rfl, rfl, rfl, rfl, by simp, ?_, ?_⟩
    · intro hidx2
      simp only [List.get_eq_getElem]
      exact List.getElem_set_self (by simpa using hidx2)
    · intro j hj hj2 hjne
      simp only [List.get_eq_getElem]
      exact List.getElem_set_ne (fun hcon => hjne hcon.symm) _

theorem handleSegmentChange_valid_index_witness :
    (handleSegmentChange
        [{ id := "a", createdAt := 1, blob := [7]
           status := RecordingStatus.COMPLETED
           segments := [JSSegment.seg { mm := 0, ss := 5 } "hello",
                        JSSegment.seg { mm := 0, ss := 9 } "world"]
           errorMessage := none }]
        "a" 0 "edited").map (fun r => r.segments)
      = [[JSSegment.seg { mm := 0, ss := 5 } "edited",
          JSSegment.seg { mm := 0, ss := 9 } "world"]] := by
  have h := (handleSegmentChange_valid_index
      [{ id := "a", createdAt := 1, blob := [7]
         status := RecordingStatus.COMPLETED
         segments := [JSSegment.seg { mm := 0, ss := 5 } "hello",
                      JSSegment.seg { mm := 0, ss := 9 } "world"]
         errorMessage := none }]
      "a" 0 "edited" 0 (by decide) { mm := 0, ss := 5 } "hello"
      (by decide) rfl).2 (by decide)
  have h2 := (h.2 rfl).2.2.2.2.2.2.1 (by decide)
  decide

/-- C10: `handleSegmentChange` performs no bounds check.  For an index at or
past the end of the edited session's segments array the write does not fail
or reject: the array is extended to `index + 1` elements (so it is strictly
lengthened), the gap is filled with sparse holes, the written element —
which ends up at the given index, as the last element — is a record holding
only the new text and no timestamp, and the resulting array is no longer a
sequence of timestamped segments sorted by decoded offset. -/
theorem handleSegmentChange_out_of_bounds (recs : List RecordingSession)
    (sid : String) (idx : Nat) (txt : String) (i : Nat)
    (hi : i < recs.length)
    (hid : (recs.get ⟨i, hi⟩).id = sid)
    (hidx : (recs.get ⟨i, hi⟩).segments.length ≤ idx) :
    ∀ hi2 : i < (handleSegmentChange recs sid idx txt).length,
      ((handleSegmentChange recs sid idx txt).get ⟨i, hi2⟩).segments
        = (recs.get ⟨i, hi⟩).segments
            ++ List.replicate (idx - (recs.get ⟨i, hi⟩).segments.length) JSSegment.hole
            ++ [JSSegment.textOnly txt] ∧
      ((handleSegmentChange recs sid idx txt).get ⟨i, hi2⟩).segments.length = idx + 1 ∧
      (recs.get ⟨i, hi⟩).segments.length
        < ((handleSegmentChange recs sid idx txt).get ⟨i, hi2⟩).segments.length ∧
      ((handleSegmentChange recs sid idx txt).get ⟨i, hi2⟩).segments.getLast?
        = some (JSSegment.textOnly txt) ∧
      ¬ SortedByOffset ((handleSegmentChange recs sid idx txt).get ⟨i, hi2⟩).segments := by
  intro hi2
  have hget : (handleSegmentChange recs sid idx txt).get ⟨i, hi2⟩
      = (fun rec => if rec.id = sid then
          { rec with segments := writeSegmentText rec.segments idx txt }
        else rec) (recs.get ⟨i, hi⟩) := by
    simp [handleSegmentChange]
  rw [hget]
  simp only [if_pos hid]
  have hw : writeSegmentText (recs.get ⟨i, hi⟩).segments idx txt
      = (recs.get ⟨i, hi⟩).segments
          ++ List.replicate (idx - (recs.get ⟨i, hi⟩).segments.length) JSSegment.hole
          ++ [JSSegment.textOnly txt] := by
    rw [writeSegmentText, dif_neg (by omega)]
  refine ⟨hw, ?_, ?_, ?_, ?_⟩
  · simp only [hw, List.length_append, List.length_replicate, List.length_cons,
      List.length_nil]
    omega
  · simp only [hw, List.length_append, List.length_replicate, List.length_cons,
      List.length_nil]
    omega
  · simp only [hw]
    rw [List.getLast?_concat]
  · intro hsorted
    obtain ⟨tl, htl, -⟩ := hsorted
    have hmem : JSSegment.textOnly txt ∈ writeSegmentText (recs.get ⟨i, hi⟩).segments idx txt := by
      rw [hw]
      exact List.mem_append_right _ (List.mem_singleton.mpr rfl)
    rw [htl] at hmem
    obtain ⟨p, -, hp⟩ := List.mem_map.mp hmem
    exact JSSegment.noConfusion hp

theorem handleSegmentChange_out_of_bounds_witness :
    (handleSegmentChange
        [{ id := "a", createdAt := 1, blob := [7]
           status := RecordingStatus.COMPLETED
           segments := [JSSegment.seg { mm := 0, ss := 5 } "hello"]
           errorMessage := none }]
        "a" 3 "stray").map (fun r => r.segments)
      = [[JSSegment.seg { mm := 0, ss := 5 } "hello",
          JSSegment.hole, JSSegment.hole, JSSegment.textOnly "stray"]] := by
  have h := (handleSegmentChange_out_of_bounds
      [{ id := "a", createdAt := 1, blob := [7]
         status := RecordingStatus.COMPLETED
         segments := [JSSegment.seg { mm := 0, ss := 5 } "hello"]
         errorMessage := none }]
      "a" 3 "stray" 0 (by decide) rfl (by decide)) (by decide)
  have h2 := h.1
  decide

end V2

namespace Db

theorem createdLE_trans (a b c : V2.RecordingSession)
    (hab : decide (b.createdAt ≤ a.createdAt) = true)
    (hbc : decide (c.createdAt ≤ b.createdAt) = true) :
    decide (c.createdAt ≤ a.createdAt) = true := by
  simp only [decide_eq_true_eq] at *
  omega

theorem createdLE_total (a b : V2.RecordingSession) :
    (decide (b.createdAt ≤ a.createdAt) || decide (a.createdAt ≤ b.createdAt)) = true := by
  simp only [Bool.or_eq_true, decide_eq_true_eq]
  omega

/-- C3: the eviction pass keeps exactly the 20 newest-by-`createdAt`
sessions (the ids being unique, as guaranteed by the store's `id` key
path): with 20 or fewer stored sessions it deletes nothing, the result has
`min n 20` sessions and is a permutation of the first 20 of the
newest-first ordering, and every deleted session is at most as recent as
every retained one — so inserting a 21st session evicts exactly the single
oldest. -/
theorem deleteOldRecordings_retention (store : List V2.RecordingSession)
    (hids : (store.map fun s => s.id).Nodup) :
    (store.length ≤ 20 → deleteOldRecordings store = store) ∧
    (deleteOldRecordings store).length = min store.length 20 ∧
    (deleteOldRecordings store).Perm ((getRecordingsFromDB store).take 20) ∧
    ∀ s ∈ deleteOldRecordings store, ∀ t ∈ store,
      t ∉ deleteOldRecordings store → t.createdAt ≤ s.createdAt := by
  have hgs : getRecordingsFromDB store
      = store.mergeSort (fun a b => decide (b.createdAt ≤ a.createdAt)) := rfl
  have hperm : (getRecordingsFromDB store).Perm store := by
    rw [hgs]
    exact List.mergeSort_perm store _
  have hlen : (getRecordingsFromDB store).length = store.length := hperm.length_eq
  by_cases hle : (getRecordingsFromDB store).length ≤ 20
  · have hres : deleteOldRecordings store = store := by
      simp only [deleteOldRecordings]
      rw [if_pos hle]
    refine ⟨fun _ => hres, ?_, ?_, ?_⟩
    · rw [hres]
      omega
    · rw [hres, List.take_of_length_le hle]
      exact hperm.symm
    · intro s hs t ht htn
      rw [hres] at htn
      exact absurd ht htn
  · have hres : deleteOldRecordings store
        = store.filter
            (fun s => !((((getRecordingsFromDB store).drop 20).map fun r => r.id).contains s.id)) := by
      simp only [deleteOldRecordings]
      rw [if_neg hle]
    have hpmem : ∀ s : V2.RecordingSession,
        (!((((getRecordingsFromDB store).drop 20).map fun r => r.id).contains s.id)) = true
          ↔ s.id ∉ ((getRecordingsFromDB store).drop 20).map (fun r => r.id) := by
      intro s
      simp [List.contains]
    have hnodup : ((getRecordingsFromDB store).map fun s => s.id).Nodup :=
      List.Perm.nodup (List.Perm.map _ hperm.symm) hids
    have hsplit : (getRecordingsFromDB store).take 20 ++ (getRecordingsFromDB store).drop 20
        = getRecordingsFromDB store := List.take_append_drop 20 _
    have hdisj : ∀ s ∈ (getRecordingsFromDB store).take 20,
        s.id ∉ ((getRecordingsFromDB store).drop 20).map (fun r => r.id) := by
      intro s hs hmem
      have h1 : ((getRecordingsFromDB store).map fun r => r.id)
          = ((getRecordingsFromDB store).take 20).map (fun r => r.id)
            ++ ((getRecordingsFromDB store).drop 20).map (fun r => r.id) := by
        rw [← List.map_append, hsplit]
      rw [h1] at hnodup
      exact (List.nodup_append.mp hnodup).2.2 (List.mem_map_of_mem _ hs) hmem
    have htake : ∀ s ∈ (getRecordingsFromDB store).take 20,
        (!((((getRecordingsFromDB store).drop 20).map fun r => r.id).contains s.id)) = true :=
      fun s hs => (hpmem s).mpr (hdisj s hs)
    have hdropf : ∀ s ∈ (getRecordingsFromDB store).drop 20,
        ¬((!((((getRecordingsFromDB store).drop 20).map fun r => r.id).contains s.id)) = true) := by
      intro s hs hcon
      exact (hpmem s).mp hcon (List.mem_map_of_mem _ hs)
    have h1 : ((getRecordingsFromDB store).take 20).filter
        (fun s => !((((getRecordingsFromDB store).drop 20).map fun r => r.id).contains s.id))
        = (getRecordingsFromDB store).take 20 := List.filter_eq_self.mpr htake
    have h2 : ((getRecordingsFromDB store).drop 20).filter
        (fun s => !((((getRecordingsFromDB store).drop 20).map fun r => r.id).contains s.id))
        = [] := List.filter_eq_nil_iff.mpr hdropf
    have hsf : (getRecordingsFromDB store).filter
        (fun s => !((((getRecordingsFromDB store).drop 20).map fun r => r.id).contains s.id))
        = (getRecordingsFromDB store).take 20 := by
      have hx : ((getRecordingsFromDB store).take 20 ++ (getRecordingsFromDB store).drop 20).filter
          (fun s => !((((getRecordingsFromDB store).drop 20).map fun r => r.id).contains s.id))
          = (getRecordingsFromDB store).take 20 := by
        rw [List.filter_append, h1, h2, List.append_nil]
      rwa [hsplit] at hx
    have hpermf : (store.filter
        (fun s => !((((getRecordingsFromDB store).drop 20).map fun r => r.id).contains s.id))).Perm
        ((getRecordingsFromDB store).take 20) := by
      rw [← hsf]
      exact List.Perm.filter _ hperm.symm
    refine ⟨?_, ?_, ?_, ?_⟩
    · intro h
      exfalso
      omega
    · rw [hres, hpermf.length_eq, List.length_take]
      omega
    · rw [hres]
      exact hpermf
    · intro s hs t ht htn
      rw [hres] at hs htn
      have hs2 : s ∈ (getRecordingsFromDB store).take 20 := hpermf.subset hs
      have ht2 : t ∈ (getRecordingsFromDB store).take 20 ++ (getRecordingsFromDB store).drop 20 := by
        rw [hsplit]
        exact hperm.symm.subset ht
      rcases List.mem_append.mp ht2 with htk | htd
      · exact absurd (List.mem_filter.mpr ⟨ht, htake t htk⟩) htn
      · have hsorted : List.Pairwise
            (fun a b : V2.RecordingSession => decide (b.createdAt ≤ a.createdAt) = true)
            (getRecordingsFromDB store) := by
          rw [hgs]
          exact List.sorted_mergeSort createdLE_trans createdLE_total store
        rw [← hsplit] at hsorted
        exact of_decide_eq_true ((List.pairwise_append.mp hsorted).2.2 s hs2 t htd)

theorem deleteOldRecordings_retention_witness :
    (deleteOldRecordings
        [{ id := "a", createdAt := 3, blob := []
           status := RecordingStatus.COMPLETED, segments := [], errorMessage := none },
         { id := "b", createdAt := 1, blob := []
           status := RecordingStatus.COMPLETED, segments := [], errorMessage := none },
         { id := "c", createdAt := 2, blob := []
           status := RecordingStatus.COMPLETED, segments := [], errorMessage := none }]).Perm
      ((getRecordingsFromDB
        [{ id := "a", createdAt := 3, blob := []
           status := RecordingStatus.COMPLETED, segments := [], errorMessage := none },
         { id := "b", createdAt := 1, blob := []
           status := RecordingStatus.COMPLETED, segments := [], errorMessage := none },
         { id := "c", createdAt := 2, blob := []
           status := RecordingStatus.COMPLETED, segments := [], errorMessage := none }]).take 20) :=
  (deleteOldRecordings_retention _ (by decide)).2.2.1

end Db
